import Mathlib

/-!
Verification of the agentic tool-calling orchestrator of the
Embedding-Atlas Streamlit/React app (web-app/src/tools/toolExecutor.ts and
web-app/src/hooks/useAgentChat.ts).

The TypeScript code is shallowly embedded: JS strings are Lean `String`
(manipulated through their character lists), JS numbers that the code uses
as integers are `Int`/`Nat`, fallible operations (engine queries, JSON
parsing, regex compilation) are `Except`/`Option`-valued oracles, and the
DuckDB engine is modelled by its contract: a table of rows, evaluated
semantically for the structured queries the tools build, and an opaque
oracle for raw SQL text.
-/

namespace AtlasAgent

/-! ## Character-level string helpers (JS semantics) -/

/-- Whitespace recognised by the model of JS `String.prototype.trim` and
of the `\s` regex class (the inputs of interest are ASCII). -/
def isWs (c : Char) : Bool :=
  c == ' ' || c == '\t' || c == '\n' || c == '\r'

/-- Model of JS `String.prototype.trim` on the character list. -/
def jsTrimL (l : List Char) : List Char :=
  ((l.dropWhile isWs).reverse.dropWhile isWs).reverse

/-- Model of JS `String.prototype.trim`. -/
def jsTrim (s : String) : String := ⟨jsTrimL s.data⟩

/-- Model of JS `String.prototype.toUpperCase` (ASCII; the SQL keywords the
validator compares against are ASCII). -/
def jsUpper (s : String) : String := ⟨s.data.map Char.toUpper⟩

/-- `needle.isPrefixOf hay` at the string level: JS `String.prototype.startsWith`. -/
def jsStartsWith (s pre : String) : Bool := pre.data.isPrefixOf s.data

/-- JS `String.prototype.includes` on character lists. -/
def hasSubstrL : List Char → List Char → Bool
  | hay, needle =>
    if needle.isPrefixOf hay then true
    else match hay with
      | [] => false
      | _ :: t => hasSubstrL t needle

/-- JS `String.prototype.includes`. -/
def hasSubstr (hay needle : String) : Bool := hasSubstrL hay.data needle.data

/-- `term.replace(/'/g, "''")`: every single quote is doubled, every other
character passes through unchanged. -/
def escQuotesL : List Char → List Char
  | [] => []
  | c :: cs => if c = '\'' then c :: c :: escQuotesL cs else c :: escQuotesL cs

/-- `term.replace(/'/g, "''")` at the string level. -/
def escQuotes (s : String) : String := ⟨escQuotesL s.data⟩

/-- SQL string-literal decoding: a doubled quote inside a literal denotes a
single quote.  Applied by the engine when it parses the interpolated query. -/
def unescQuotesL : List Char → List Char
  | [] => []
  | [c] => [c]
  | c :: d :: cs =>
    if c = '\'' ∧ d = '\'' then c :: unescQuotesL cs
    else c :: unescQuotesL (d :: cs)

/-! ## ILIKE pattern matching

The engine contract (spec section 6) requires a case-insensitive substring
match; the tools issue `description ILIKE '%…%'` patterns.  `likeMatchFuel`
models SQL LIKE matching, case-insensitively: `%` matches any sequence,
`_` any single character, no escape character.  Every recursive call
shrinks `pattern.length + text.length`, so fuel exceeding that sum is an
upper bound on the recursion depth and the fuel-exhausted branch is
unreachable from `likeMatch`. -/

def likeMatchFuel : Nat → List Char → List Char → Bool
  | 0, _, _ => false
  | _ + 1, [], s => s.isEmpty
  | fuel + 1, '%' :: ps, s =>
    likeMatchFuel fuel ps s ||
      (match s with
       | [] => false
       | _ :: s2 => likeMatchFuel fuel ('%' :: ps) s2)
  | fuel + 1, '_' :: ps, s =>
    (match s with
     | [] => false
     | _ :: s2 => likeMatchFuel fuel ps s2)
  | fuel + 1, c :: ps, s =>
    (match s with
     | [] => false
     | d :: s2 => (c.toLower == d.toLower) && likeMatchFuel fuel ps s2)

/-- Case-insensitive LIKE match of `text` against `pattern`. -/
def likeMatch (pattern text : List Char) : Bool :=
  likeMatchFuel (pattern.length + text.length + 1) pattern text

/-- The row predicate the engine evaluates for the interpolated fragment
`description ILIKE '%<escQuotes term>%'`: the engine first decodes the
string literal (undoing the quote doubling), then LIKE-matches. -/
def ilikeTermMatch (term text : String) : Bool :=
  likeMatch ('%' :: unescQuotesL (escQuotesL term.data) ++ ['%']) text.data

/-! ## Data model (toolExecutor.ts interfaces) -/

/-- One row of the `reviews` table (`__row_index__`, `Rating`, `description`). -/
structure Row where
  rowIndex : Nat
  Rating : Int
  description : String
deriving DecidableEq, Repr, Inhabited

/-- A result row of a raw SQL query: named fields, values rendered as text. -/
abbrev RawRow := List (String × String)

/-- The `function` member of a ToolCall. -/
structure ToolFunctionCall where
  name : String
  arguments : String
deriving DecidableEq, Repr

/-- interface ToolCall (the constant discriminator `type: 'function'` is omitted). -/
structure ToolCall where
  id : String
  function : ToolFunctionCall
deriving DecidableEq, Repr

/-- A review object as the tools return it (`id`, `rating`, and the
`excerpt`/`text` field, both modelled by `text`). -/
structure ReviewOut where
  id : Nat
  rating : Int
  text : String
deriving DecidableEq, Repr

/-- The `result` payloads of the five tools.  `statsRes` carries the rating
sum instead of the float `toFixed(2)` rendering of the average; no claim
depends on that formatting. -/
inductive ResultPayload
  | sqlRes (columns : List String) (rows : List RawRow) (row_count : Nat)
      (total_matching : Nat) (truncated : Bool)
  | textRes (query : String) (matches_returned : Nat) (total_matches : Nat)
      (reviews : List ReviewOut)
  | statsRes (total_reviews : Nat) (ratingSum : Int) (min_rating max_rating : Option Int)
      (rating_distribution : Option (List (Int × Nat)))
  | sampleRes (sample_size : Nat) (filter : String) (reviews : List ReviewOut)
  | flexRes (terms : List String) (mode : String) (regex : Bool)
      (total_matches : Nat) (matches_returned : Nat)
      (term_breakdown : List (String × Int)) (reviews : List ReviewOut)
deriving DecidableEq, Repr

/-- interface ToolResult: `result: null` is `none`, an absent `error` member
is `none`. -/
structure ToolResult where
  name : String
  call_id : String
  result : Option ResultPayload
  error : Option String := none
deriving DecidableEq, Repr

/-- The external collaborators of the executor: the reviews table, plus
oracles for raw SQL text, for `ORDER BY RANDOM()`, and for compiling a
regex pattern into a matcher (`Except` = the engine raises). -/
structure Env where
  db : List Row
  rawQuery : String → Except String (List RawRow)
  shuffle : List Row → List Row
  regexCompile : String → Except String (String → Bool)

/-! ## Small JS numeric helpers -/

/-- JS `x || d` for a numeric argument: an absent argument (after the
default parameter) and `0` both fall back to the default.  JS numbers that
the code treats as integers are modelled as `Int`. -/
def jsOr (v : Option Int) (d : Int) : Int :=
  match v with
  | none => d
  | some x => if x = 0 then d else x

/-- `Math.min(Math.max(1, limit || d), 50)` — the limit clamp of
`textSearch` (d = 10) and `flexibleSearch` (d = 15). -/
def clampLimit (d : Int) (limit : Option Int) : Int := min (max 1 (jsOr limit d)) 50

/-- `Math.min(Math.max(1, count || 5), 20)` — the count clamp of `getSample`. -/
def safeSampleCount (count : Option Int) : Int := min (max 1 (jsOr count 5)) 20

/-! ## sql_query -/

def dangerousKeywords : List String :=
  ["DROP", "DELETE", "INSERT", "UPDATE", "ALTER", "CREATE", "TRUNCATE"]

/-- `query.trim().toUpperCase()` -/
def sqlNormalize (q : String) : String := jsUpper (jsTrim q)

/-- The validation at the head of `sqlQuery`: `none` means the query may be
sent to the engine, `some e` is the error returned without contacting it.
The keyword scan returns the first denylisted keyword found, as the
`for … if … return` loop does. -/
def sqlValidationError (q : String) : Option String :=
  let normalized := sqlNormalize q
  if ¬ jsStartsWith normalized "SELECT" then
    some "Only SELECT queries are allowed for security reasons"
  else
    match dangerousKeywords.find? (fun kw => hasSubstr normalized kw) with
    | some kw => some ("Query contains forbidden keyword: " ++ kw)
    | none => none

/-- The success result of `sqlQuery`: rows capped at 100, columns from the
first returned row, `total_matching` the uncapped length, `truncated` when
the engine returned more than 100 rows. -/
def buildSqlSuccess (cid : String) (allRows : List RawRow) : ToolResult :=
  let rows := allRows.take 100
  { name := "sql_query", call_id := cid,
    result := some (.sqlRes
      (match rows with | [] => [] | r :: _ => r.map Prod.fst)
      rows rows.length allRows.length (decide (100 < allRows.length))) }

def sqlQueryTool (rawQuery : String → Except String (List RawRow)) (cid : String)
    (query : Option String) : Except String ToolResult :=
  match query with
  | none => .error "Cannot read properties of undefined"
  | some q =>
    match sqlValidationError q with
    | some e => .ok { name := "sql_query", call_id := cid, result := none, error := some e }
    | none =>
      match rawQuery q with
      | .error e => .error e
      | .ok allRows => .ok (buildSqlSuccess cid allRows)

/-! ## text_search -/

/-- The 300-character excerpt of a review text. -/
def excerptOf (d : String) : String :=
  if 300 < d.data.length then (⟨d.data.take 300⟩ : String) ++ "..." else d

def mkReviewExcerpt (r : Row) : ReviewOut :=
  { id := r.rowIndex, rating := r.Rating, text := excerptOf r.description }

def mkReviewFull (r : Row) : ReviewOut :=
  { id := r.rowIndex, rating := r.Rating, text := r.description }

/-- `textSearch`: the engine evaluates `description ILIKE '%<escaped>%'`
(semantics `ilikeTermMatch`), rows are capped by the clamped limit, and a
second COUNT query reports the uncapped number of matches. -/
def textSearchTool (env : Env) (cid : String) (searchQuery : Option String)
    (limit : Option Int) : Except String ToolResult :=
  match searchQuery with
  | none => .error "Cannot read properties of undefined"
  | some q =>
    let safeLimit := clampLimit 10 limit
    let matching := env.db.filter (fun r => ilikeTermMatch q r.description)
    let rows := matching.take safeLimit.toNat
    .ok { name := "text_search", call_id := cid,
          result := some (.textRes q rows.length matching.length
            (rows.map mkReviewExcerpt)) }

/-! ## get_stats -/

def insertAscInt (x : Int) : List Int → List Int
  | [] => [x]
  | y :: ys => if x ≤ y then x :: y :: ys else y :: insertAscInt x ys

def sortAscInt (l : List Int) : List Int := l.foldr insertAscInt []

def dedupFirstInt (l : List Int) : List Int :=
  l.foldl (fun acc x => if x ∈ acc then acc else acc ++ [x]) []

/-- `SELECT Rating, COUNT(*) FROM reviews GROUP BY Rating ORDER BY Rating`. -/
def ratingDistribution (db : List Row) : List (Int × Nat) :=
  (sortAscInt (dedupFirstInt (db.map (·.Rating)))).map
    (fun r => (r, (db.filter (fun x => x.Rating == r)).length))

def getStatsTool (env : Env) (cid : String) (includeDistribution : Option Bool) :
    Except String ToolResult :=
  let ratings := env.db.map (·.Rating)
  let dist := if includeDistribution.getD true then some (ratingDistribution env.db) else none
  .ok { name := "get_stats", call_id := cid,
        result := some (.statsRes env.db.length ratings.sum ratings.min? ratings.max? dist) }

/-! ## get_sample -/

/-- The `filter` field of the payload mirrors the truthiness test
`ratingFilter ? \x7bRating = v\x7d : 'none'` of the source (note it does not
re-check the 1–5 bounds). -/
def sampleFilterLabel (ratingFilter : Option Int) : String :=
  match ratingFilter with
  | none => "none"
  | some v => if v = 0 then "none" else "Rating = " ++ toString v

/-- `ratingFilter && ratingFilter >= 1 && ratingFilter <= 5`. -/
def sampleFilterActive (ratingFilter : Option Int) : Bool :=
  match ratingFilter with
  | none => false
  | some v => decide (v ≠ 0 ∧ 1 ≤ v ∧ v ≤ 5)

/-- `getSample`: optional rating filter (with `Math.floor`, the identity on
the integer model), `ORDER BY RANDOM()` via the shuffle oracle, `LIMIT`
by the clamped count. -/
def getSampleTool (env : Env) (cid : String) (count : Option Int)
    (ratingFilter : Option Int) : Except String ToolResult :=
  let safeCount := safeSampleCount count
  let base := if sampleFilterActive ratingFilter
    then env.db.filter (fun r => r.Rating == ratingFilter.getD 0)
    else env.db
  let rows := (env.shuffle base).take safeCount.toNat
  .ok { name := "get_sample", call_id := cid,
        result := some (.sampleRes rows.length (sampleFilterLabel ratingFilter)
          (rows.map mkReviewFull)) }

/-! ## flexible_search -/

/-- input `terms`: an array, or a delimiter-joined string. -/
inductive TermsArg
  | str (s : String)
  | arr (l : List String)
deriving DecidableEq, Repr

/-- Longest run of whitespace at the head: (run length, rest). -/
def wsRun : List Char → Nat × List Char
  | [] => (0, [])
  | c :: cs => if isWs c then ((wsRun cs).1 + 1, (wsRun cs).2) else (0, c :: cs)

/-- Case-insensitive literal word match at the head; returns the rest. -/
def matchWordCI : List Char → List Char → Option (List Char)
  | [], rest => some rest
  | _ :: _, [] => none
  | a :: ws, c :: cs => if a.toLower = c.toLower then matchWordCI ws cs else none

/-- A match of the split regex `[,;]|\s+AND\s+|\s+OR\s+` (flag `i`)
starting at the head of `l`; returns the remainder after the delimiter.
`AND`/`OR` must be framed by at least one whitespace character on each
side; the greedy `\s+` runs are maximal, which regex backtracking also
yields here because the words start with non-whitespace. -/
def delimMatch (l : List Char) : Option (List Char) :=
  match l with
  | [] => none
  | c :: cs =>
    if c = ',' ∨ c = ';' then some cs
    else if isWs c then
      let afterWs := (wsRun (c :: cs)).2
      match matchWordCI ['A', 'N', 'D'] afterWs with
      | some rest =>
        if 0 < (wsRun rest).1 then some (wsRun rest).2 else none
      | none =>
        match matchWordCI ['O', 'R'] afterWs with
        | some rest =>
          if 0 < (wsRun rest).1 then some (wsRun rest).2 else none
        | none => none
    else none

/-- The scanner of `String.prototype.split` on that regex.  Every delimiter
consumes at least one character, so fuel `l.length + 1` never runs out. -/
def splitGo : Nat → List Char → List Char → List (List Char) → List (List Char)
  | 0, cur, _, acc => acc ++ [cur.reverse]
  | fuel + 1, cur, l, acc =>
    match l with
    | [] => acc ++ [cur.reverse]
    | c :: cs =>
      match delimMatch (c :: cs) with
      | some rest => splitGo fuel [] rest (acc ++ [cur.reverse])
      | none => splitGo fuel (c :: cur) cs acc

def splitTermsJS (s : String) : List String :=
  (splitGo (s.data.length + 1) [] s.data []).map (fun l => (⟨l⟩ : String))

/-- Term normalisation: split a string input / keep an array input, trim
each term, drop empties.  A missing or non-string, non-array value yields
the empty list. -/
def normalizeTerms (terms : Option TermsArg) : List String :=
  match terms with
  | some (.str s) => ((splitTermsJS s).map jsTrim).filter (fun t => !t.data.isEmpty)
  | some (.arr l) => (l.map jsTrim).filter (fun t => !t.data.isEmpty)
  | none => []

/-- Conjunction / disjunction of the per-term clauses, per the requested
mode (`' AND '` join exactly when the mode string equals `"AND"`). -/
def joinPred (isAnd : Bool) (preds : List (Row → Bool)) (r : Row) : Bool :=
  if isAnd then preds.all (fun p => p r) else preds.any (fun p => p r)

/-- One entry of `term_breakdown`: the single-term count, `-1` when the
term fails (malformed regex). -/
def termBreakdownEntry (env : Env) (regex : Bool) (t : String) : String × Int :=
  if regex then
    match env.regexCompile t with
    | .ok f => (t, ((env.db.filter (fun r => f r.description)).length : Int))
    | .error _ => (t, -1)
  else
    (t, ((env.db.filter (fun r => ilikeTermMatch t r.description)).length : Int))

/-- Compile every term of a regex-mode query; the first failure is the
engine error the combined query raises. -/
def compileAll (env : Env) : List String → Except String (List (String → Bool))
  | [] => .ok []
  | t :: ts =>
    match env.regexCompile t with
    | .error e => .error e
    | .ok f =>
      match compileAll env ts with
      | .error e => .error e
      | .ok fs => .ok (f :: fs)

def mkFlexSuccess (cid : String) (searchTerms : List String) (effMode : String)
    (effRegex : Bool) (matching : List Row) (safeLimit : Int)
    (breakdown : List (String × Int)) : ToolResult :=
  let rows := matching.take safeLimit.toNat
  { name := "flexible_search", call_id := cid,
    result := some (.flexRes searchTerms effMode effRegex matching.length rows.length
      breakdown (rows.map mkReviewExcerpt)) }

def flexibleSearchTool (env : Env) (cid : String) (terms : Option TermsArg)
    (mode : Option String) (limit : Option Int) (regex : Option Bool) :
    Except String ToolResult :=
  let searchTerms := normalizeTerms terms
  if searchTerms.isEmpty then
    .ok { name := "flexible_search", call_id := cid, result := none,
          error := some "No search terms provided" }
  else
    let effMode := mode.getD "AND"
    let effRegex := regex.getD false
    let safeLimit := clampLimit 15 limit
    let isAnd := effMode == "AND"
    if effRegex then
      match compileAll env searchTerms with
      | .error e =>
        .ok { name := "flexible_search", call_id := cid, result := none,
              error := some ("Invalid regex pattern: " ++ e) }
      | .ok fs =>
        let matching := env.db.filter (joinPred isAnd (fs.map (fun f r => f r.description)))
        .ok (mkFlexSuccess cid searchTerms effMode effRegex matching safeLimit
          (searchTerms.map (termBreakdownEntry env effRegex)))
    else
      let matching := env.db.filter
        (joinPred isAnd (searchTerms.map (fun t r => ilikeTermMatch t r.description)))
      .ok (mkFlexSuccess cid searchTerms effMode effRegex matching safeLimit
        (searchTerms.map (termBreakdownEntry env effRegex)))

/-! ## ToolExecutor.execute -/

/-- The parsed argument object; absent members are `none`. -/
structure ArgsObj where
  query : Option String := none
  limit : Option Int := none
  terms : Option TermsArg := none
  mode : Option String := none
  regex : Option Bool := none
  include_rating_distribution : Option Bool := none
  count : Option Int := none
  rating_filter : Option Int := none

/-- The `switch (name)` dispatch inside the `try` block. -/
def dispatchTool (env : Env) (tc : ToolCall) (args : ArgsObj) : Except String ToolResult :=
  match tc.function.name with
  | "sql_query" => sqlQueryTool env.rawQuery tc.id args.query
  | "text_search" => textSearchTool env tc.id args.query args.limit
  | "flexible_search" => flexibleSearchTool env tc.id args.terms args.mode args.limit args.regex
  | "get_stats" => getStatsTool env tc.id args.include_rating_distribution
  | "get_sample" => getSampleTool env tc.id args.count args.rating_filter
  | other => .ok { name := other, call_id := tc.id, result := none,
                   error := some ("Unknown tool: " ++ other) }

/-- `ToolExecutor.execute`: JSON parsing of the argument string is an
oracle (`none` = `JSON.parse` throws); every `Except.error` of a handler is
the `catch` branch turning a thrown fault into a ToolResult error. -/
def execute (parse : String → Option ArgsObj) (env : Env) (tc : ToolCall) : ToolResult :=
  match parse tc.function.arguments with
  | none =>
    { name := tc.function.name, call_id := tc.id, result := none,
      error := some ("Failed to parse arguments: " ++ tc.function.arguments) }
  | some args =>
    match dispatchTool env tc args with
    | .ok r => r
    | .error e => { name := tc.function.name, call_id := tc.id, result := none, error := some e }

/-! ## Selection context builder (useAgentChat.ts, sendMessage) -/

/-- A selected point as the hook reads it: `p.fields?.Rating`,
`p.fields?.description ?? p.text ?? 'No description'`. -/
structure SelPoint where
  Rating : Option Int := none
  description : Option String := none
  text : Option String := none
deriving DecidableEq, Repr, Inhabited

def MAX_CONTEXT_CHARS : Nat := 48000
def HEADER_RESERVE : Nat := 500

/-- The fixed record template `[Review i+1] Rating: r★\n description`. -/
def formatReview (i : Nat) (p : SelPoint) : String :=
  let rating := match p.Rating with | some r => toString r | none => "N/A"
  let desc := match p.description with
    | some d => d
    | none => match p.text with | some t => t | none => "No description"
  "[Review " ++ toString (i + 1) ++ "] Rating: " ++ rating ++ "★\n" ++ desc

/-- The accumulation loop of the context builder: returns the formatted
records, the final accumulated length, and the number of included records.
It breaks as soon as the next record (plus the 4-character separator)
would push the accumulated length over `lim = budget − header reserve`. -/
def digestGo (lim : Nat) : Nat → Nat → List SelPoint → (List String × Nat × Nat)
  | _, totalChars, [] => ([], totalChars, 0)
  | i, totalChars, p :: rest =>
    let txt := formatReview i p
    if lim < totalChars + txt.length + 4 then ([], totalChars, 0)
    else
      let r := digestGo lim (i + 1) (totalChars + txt.length + 4) rest
      (txt :: r.1, r.2.1, r.2.2 + 1)

/-- `(selectedPoints as any).totalCount || selectedPoints.length`. -/
def jsTotalCount (totalCount : Option Nat) (len : Nat) : Nat :=
  match totalCount with
  | none => len
  | some c => if c = 0 then len else c

/-- The assembled SelectionContext.  The float `toFixed(2)` rendering of
the average is modelled by the exact rational; the distribution entries
are sorted by rating descending as `Object.entries(...).sort(...)` yields
(numeric JS object keys enumerate ascending, then the comparator reverses). -/
structure SelectionContext where
  included : Nat
  reviewsFormatted : List String
  totalChars : Nat
  total : Nat
  ratingsUsed : List Int
  avgRating : Option Rat
  ratingCounts : List (Int × Nat)
  truncated : Bool
deriving DecidableEq, Repr

def buildSelectionContext (B H : Nat) (pts : List SelPoint) (totalCount : Option Nat) :
    SelectionContext :=
  let r := digestGo (B - H) 0 0 pts
  let included := r.2.2
  let ratings := (pts.take included).filterMap (fun p => p.Rating)
  { included := included
    reviewsFormatted := r.1
    totalChars := r.2.1
    total := jsTotalCount totalCount pts.length
    ratingsUsed := ratings
    avgRating := if ratings.isEmpty then none
      else some ((ratings.sum : Rat) / (ratings.length : Rat))
    ratingCounts := ((sortAscInt (dedupFirstInt ratings)).reverse).map
      (fun v => (v, ratings.count v))
    truncated := decide (included < jsTotalCount totalCount pts.length) }

/-! ## Agent loop (useAgentChat.ts, sendMessage) -/

/-- A conversation message as sent to `/api/agent`. -/
structure ChatMsg where
  role : String
  content : String
  tool_calls : List ToolCall := []
  tool_call_id : Option String := none
deriving DecidableEq, Repr

/-- A backend reply `{type, tool_calls?, content?}` as the hook reads it. -/
structure AgentResponse where
  rtype : String
  tool_calls : List ToolCall := []
  content : Option String := none
deriving DecidableEq, Repr

def maxIterations : Nat := 8

/-- `data.type === 'tool_calls' && data.tool_calls && data.tool_calls.length > 0` -/
def hasToolCalls (r : AgentResponse) : Bool :=
  r.rtype == "tool_calls" && !r.tool_calls.isEmpty

/-- The one-shot system directive injected when the next iteration is the
iteration numbered `maxIterations − 1`. -/
def wrapUpMsg : ChatMsg :=
  { role := "system",
    content := "IMPORTANT: You have used enough tools. Please provide your final answer now based on the information gathered. Do NOT call any more tools." }

def fallbackContent : String := "I apologize, but I could not generate a response."

/-- The assistant message echoing a batch of tool calls (empty content). -/
def assistantToolMsg (calls : List ToolCall) : ChatMsg :=
  { role := "assistant", content := "", tool_calls := calls }

/-- The tool message appended per ToolResult; `render` is the external
`JSON.stringify(result.result || result.error)` serialisation. -/
def toolResultMsg (render : ToolResult → String) (r : ToolResult) : ChatMsg :=
  { role := "tool", content := render r, tool_call_id := some r.call_id }

/-- `toolCall.function?.name || 'unknown'` (always present in the model). -/
def toolCallName (c : ToolCall) : String := c.function.name

/-- JS `[...new Set(l)]`: first occurrences, insertion order. -/
def jsSetDedup (l : List String) : List String :=
  l.foldl (fun acc x => if x ∈ acc then acc else acc ++ [x]) []

/-- One ExecutingTools phase: execute the batch in the order the model
supplied it, append the assistant echo message, then one tool message per
result, in that same order. -/
def appendToolBatch (exec : ToolCall → ToolResult) (render : ToolResult → String)
    (conv : List ChatMsg) (calls : List ToolCall) : List ChatMsg :=
  conv ++ [assistantToolMsg calls] ++ (calls.map exec).map (toolResultMsg render)

/-- How `sendMessage` ends: the final assistant text, or the thrown
iteration-limit error carrying the distinct tool names used. -/
inductive Outcome
  | finalAnswer (text : String)
  | iterLimit (distinctTools : List String)
deriving DecidableEq, Repr

/-- The observable run: per model invocation the iteration number, the
persistent conversation at that point, and the backend reply; plus the
final `allToolsExecuted` list and the outcome. -/
structure AgentRun where
  invocations : List (Nat × List ChatMsg × AgentResponse)
  toolsExecuted : List String
  outcome : Outcome
deriving DecidableEq, Repr

/-- The `while (iteration < maxIterations)` loop.  `fuel` equals
`maxIterations − iteration`, so the fuel-exhausted case is exactly the
loop exit that throws the iteration-limit error. -/
def agentLoopAux (exec : ToolCall → ToolResult) (render : ToolResult → String)
    (backend : Nat → List ChatMsg → AgentResponse) :
    Nat → Nat → List ChatMsg → List String → AgentRun
  | 0, _, _, tools => ⟨[], tools, .iterLimit (jsSetDedup tools)⟩
  | fuel + 1, iteration, conv, tools =>
    let iter := iteration + 1
    let toSend := if iter = maxIterations - 1 then conv ++ [wrapUpMsg] else conv
    let resp := backend iter toSend
    if hasToolCalls resp then
      let tools2 := tools ++ resp.tool_calls.map toolCallName
      let conv2 := appendToolBatch exec render conv resp.tool_calls
      let rest := agentLoopAux exec render backend fuel iter conv2 tools2
      ⟨(iter, conv, resp) :: rest.invocations, rest.toolsExecuted, rest.outcome⟩
    else
      ⟨[(iter, conv, resp)], tools, .finalAnswer (resp.content.getD fallbackContent)⟩

/-- `sendMessage` from its first model call on (history assembly and
selection-context prepending happen before the loop): iteration starts at
0 with an empty `allToolsExecuted`. -/
def sendMessageLoop (exec : ToolCall → ToolResult) (render : ToolResult → String)
    (backend : Nat → List ChatMsg → AgentResponse) (conv : List ChatMsg) : AgentRun :=
  agentLoopAux exec render backend maxIterations 0 conv []

/-! ## Predicates and sample data used by the verification -/

/-- The rejection condition of the sql_query validator, as the claim words it. -/
def sqlRejectCond (q : String) : Prop :=
  ¬ jsStartsWith (sqlNormalize q) "SELECT" = true
    ∨ ∃ kw ∈ dangerousKeywords, hasSubstr (sqlNormalize q) kw = true

instance (q : String) : Decidable (sqlRejectCond q) := by
  unfold sqlRejectCond
  infer_instance

/-- The result echoes the call id, and a success payload and an error
string never coexist. -/
def wellFormedFor (cid : String) (r : ToolResult) : Prop :=
  r.call_id = cid ∧ (r.result = none ∨ r.error = none)

/-- The formatted records of a list, indices starting at `i`. -/
def fmtList (i : Nat) : List SelPoint → List String
  | [] => []
  | p :: rest => formatReview i p :: fmtList (i + 1) rest

/-- Sum of the formatted lengths plus the 4-character separators of the
first `k` records, indices starting at `i`. -/
def fmtLenSum (i : Nat) : List SelPoint → Nat → Nat
  | _, 0 => 0
  | [], _ + 1 => 0
  | p :: rest, k + 1 => ((formatReview i p).length + 4) + fmtLenSum (i + 1) rest k

/-- The tool names pushed onto `allToolsExecuted` across a trace: per
invocation whose reply carried tool calls, the batch's names in order. -/
def executedNames : List (Nat × List ChatMsg × AgentResponse) → List String
  | [] => []
  | e :: rest =>
    (if hasToolCalls e.2.2 then e.2.2.tool_calls.map toolCallName else [])
      ++ executedNames rest

def sampleEnvA : Env :=
  { db := [⟨0, 5, "spotless room"⟩, ⟨1, 2, "noisy street"⟩],
    rawQuery := fun _ => .ok [], shuffle := id,
    regexCompile := fun _ => .error "no regex" }

def wildcardEnv : Env :=
  { db := [⟨0, 4, "axxb"⟩], rawQuery := fun _ => .ok [],
    shuffle := id, regexCompile := fun _ => .error "no regex" }

def flexEnvB : Env :=
  { db := [⟨0, 5, "Great breakfast and ocean view"⟩, ⟨1, 4, "breakfast only"⟩,
           ⟨2, 3, "quiet room"⟩],
    rawQuery := fun _ => .ok [], shuffle := id,
    regexCompile := fun _ => .error "no regex" }

/-- A selected point whose formatted record is exactly 60 characters:
22 characters of template plus a 38-character description. -/
def demoPoint : SelPoint :=
  { Rating := some 5, description := some "abcdefghijklmnopqrstuvwxyz012345678901",
    text := none }

def errorExec : ToolCall → ToolResult :=
  fun c => { name := c.function.name, call_id := c.id, result := none, error := some "e" }

def demoRender : ToolResult → String := fun _ => "r"

def demoCall : ToolCall :=
  { id := "t1", function := { name := "get_stats", arguments := "args" } }

def alwaysToolsBackend : Nat → List ChatMsg → AgentResponse :=
  fun _ _ => { rtype := "tool_calls", tool_calls := [demoCall] }

def demoParse : String → Option ArgsObj := fun _ => some {}

def demoRespTools : AgentResponse := { rtype := "tool_calls", tool_calls := [demoCall] }

def demoRespFinal : AgentResponse := { rtype := "response", content := some "done" }

def demoBackend : Nat → List ChatMsg → AgentResponse :=
  fun k _ => if k = 1 then demoRespTools else demoRespFinal

def demoInvA : Nat × List ChatMsg × AgentResponse := (1, [], demoRespTools)

def demoInvB : Nat × List ChatMsg × AgentResponse :=
  (2, [assistantToolMsg [demoCall],
    { role := "tool", content := "r", tool_call_id := some "t1" }], demoRespFinal)

/-! ## Shared lemmas -/

theorem unescQuotesL_cons_ne (c : Char) (l : List Char) (h : ¬ c = '\'') :
    unescQuotesL (c :: l) = c :: unescQuotesL l := by
  cases l with
  | nil => rfl
  | cons d cs => simp [unescQuotesL, h]

/-- The SQL literal decoding undoes the quote doubling: what the engine
LIKE-matches against is the raw term between the `%` anchors. -/
theorem unesc_escQuotesL (l : List Char) : unescQuotesL (escQuotesL l) = l := by
  induction l with
  | nil => rfl
  | cons c cs ih =>
    by_cases hc : c = '\''
    · subst hc; simp [escQuotesL, unescQuotesL, ih]
    · simp [escQuotesL, hc, unescQuotesL_cons_ne _ _ hc, ih]

theorem length_filter_mono {α : Type} (l : List α) (p q : α → Bool)
    (h : ∀ x, p x = true → q x = true) :
    (l.filter p).length ≤ (l.filter q).length := by
  induction l with
  | nil => simp
  | cons a t ih =>
    by_cases hp : p a = true
    · simp only [List.filter_cons, hp, h a hp, if_true, List.length_cons]
      omega
    · simp only [List.filter_cons, hp, if_false, Bool.false_eq_true]
      by_cases hq : q a = true
      · simp only [hq, if_true, List.length_cons]
        omega
      · simp only [hq, if_false, Bool.false_eq_true]
        exact ih

theorem sqlValidationError_isSome_iff (q : String) :
    (sqlValidationError q).isSome = true ↔ sqlRejectCond q := by
  unfold sqlValidationError sqlRejectCond
  by_cases hs : jsStartsWith (sqlNormalize q) "SELECT" = true
  · rw [if_neg (by simp [hs])]
    cases hfind : dangerousKeywords.find? (fun kw => hasSubstr (sqlNormalize q) kw) with
    | none =>
      simp only [Option.isSome_none, Bool.false_eq_true, false_iff]
      push_neg
      refine ⟨hs, ?_⟩
      intro kw hkw
      exact (List.find?_eq_none.mp hfind) kw hkw
    | some kw =>
      simp only [Option.isSome_some, true_iff]
      exact Or.inr ⟨kw, List.mem_of_find?_eq_some hfind, List.find?_some hfind⟩
  · rw [if_pos (by simp [hs])]
    simp only [Option.isSome_some, true_iff]
    exact Or.inl hs

theorem sqlValidationError_eq_none_of_not_reject {q : String} (h : ¬ sqlRejectCond q) :
    sqlValidationError q = none := by
  rw [← sqlValidationError_isSome_iff] at h
  exact Option.not_isSome_iff_eq_none.mp (by simpa using h)

/-- C2: For every query string passed to sql_query, the tool returns a
ToolResult error and issues no query to the engine (the outcome is one
fixed error result, whatever the engine oracle) if and only if the
trimmed, upper-cased copy of the string does not begin with SELECT or
contains one of the denylisted keywords DROP, DELETE, INSERT, UPDATE,
ALTER, CREATE, TRUNCATE as a substring anywhere in it; a query passing
both checks is sent to the engine and the engine response determines the
result. -/
theorem sql_query_validation_iff (cid q : String) :
    ((∃ e, ∀ o : String → Except String (List RawRow),
        sqlQueryTool o cid (some q) =
          .ok { name := "sql_query", call_id := cid, result := none, error := some e })
      ↔ sqlRejectCond q)
    ∧ (¬ sqlRejectCond q → ∀ (o : String → Except String (List RawRow)) rows,
        o q = .ok rows → sqlQueryTool o cid (some q) = .ok (buildSqlSuccess cid rows))
    ∧ (¬ sqlRejectCond q → ∀ (o : String → Except String (List RawRow)) e,
        o q = .error e → sqlQueryTool o cid (some q) = .error e) := by
  refine ⟨⟨?_, ?_⟩, ?_, ?_⟩
  · rintro ⟨e, he⟩
    by_contra hnr
    have hv := sqlValidationError_eq_none_of_not_reject hnr
    have h1 := he (fun _ => .error "engine down")
    rw [sqlQueryTool] at h1
    simp only [hv] at h1
    exact absurd h1 (by simp)
  · intro hr
    have hs : (sqlValidationError q).isSome = true := (sqlValidationError_isSome_iff q).mpr hr
    obtain ⟨e, he⟩ := Option.isSome_iff_exists.mp hs
    refine ⟨e, fun o => ?_⟩
    rw [sqlQueryTool]
    simp [he]
  · intro hnr o rows ho
    have hv := sqlValidationError_eq_none_of_not_reject hnr
    rw [sqlQueryTool]
    simp [hv, ho]
  · intro hnr o e ho
    have hv := sqlValidationError_eq_none_of_not_reject hnr
    rw [sqlQueryTool]
    simp [hv, ho]

/-- Witness for C2: a denylist hit is rejected for every engine oracle; a
clean SELECT is answered from the engine response. -/
theorem sql_query_validation_iff_witness :
    (∃ e, ∀ o : String → Except String (List RawRow),
        sqlQueryTool o "c1" (some "SELECT x; DROP TABLE reviews") =
          .ok { name := "sql_query", call_id := "c1", result := none, error := some e })
    ∧ sqlQueryTool (fun _ => .ok [[("n", "1")]]) "c2" (some " select 1 ") =
        .ok (buildSqlSuccess "c2" [[("n", "1")]]) :=
  ⟨(sql_query_validation_iff "c1" "SELECT x; DROP TABLE reviews").1.mpr (by decide),
   (sql_query_validation_iff "c2" " select 1 ").2.1 (by decide)
     (fun _ => .ok [[("n", "1")]]) [[("n", "1")]] rfl⟩

/-- C5: for a validated query answered by the engine, the tool returns the
first 100 engine rows in engine order, `row_count` is the number of
returned rows, `total_matching` the engine's full count, and `truncated`
exactly when that count exceeds 100. -/
theorem sql_query_result_cap (cid q : String)
    (o : String → Except String (List RawRow)) (rows : List RawRow)
    (hval : sqlValidationError q = none) (ho : o q = .ok rows) :
    sqlQueryTool o cid (some q) = .ok
      { name := "sql_query", call_id := cid,
        result := some (.sqlRes
          (match rows.take 100 with | [] => [] | r :: _ => r.map Prod.fst)
          (rows.take 100) (rows.take 100).length rows.length
          (decide (100 < rows.length))),
        error := none }
    ∧ (rows.take 100).length ≤ 100
    ∧ (rows.take 100).length = min 100 rows.length := by
  refine ⟨?_, ?_, ?_⟩
  · rw [sqlQueryTool]
    simp [hval, ho, buildSqlSuccess]
  · simp [List.length_take]
  · simp [List.length_take]

/-- Witness for C5 at a 101-row engine result: exactly 100 rows returned
and `truncated` set. -/
theorem sql_query_result_cap_witness :
    sqlValidationError "SELECT description FROM reviews" = none
    ∧ ((List.replicate 101 ([("d", "x")] : RawRow)).take 100).length = 100
    ∧ sqlQueryTool (fun _ => .ok (List.replicate 101 [("d", "x")]))
        "c3" (some "SELECT description FROM reviews") = .ok
        { name := "sql_query", call_id := "c3",
          result := some (.sqlRes
            (match (List.replicate 101 ([("d", "x")] : RawRow)).take 100 with
              | [] => [] | r :: _ => r.map Prod.fst)
            ((List.replicate 101 ([("d", "x")] : RawRow)).take 100)
            ((List.replicate 101 ([("d", "x")] : RawRow)).take 100).length
            (List.replicate 101 ([("d", "x")] : RawRow)).length
            (decide (100 < (List.replicate 101 ([("d", "x")] : RawRow)).length))),
          error := none } :=
  ⟨by decide, by decide,
   (sql_query_result_cap "c3" "SELECT description FROM reviews"
      (fun _ => .ok (List.replicate 101 [("d", "x")]))
      (List.replicate 101 [("d", "x")]) (by decide) rfl).1⟩

/-! ## Executor result invariants -/

theorem sqlQueryTool_ok {o : String → Except String (List RawRow)} {cid : String}
    {q : Option String} {r : ToolResult} (h : sqlQueryTool o cid q = .ok r) :
    wellFormedFor cid r := by
  unfold sqlQueryTool at h
  split at h
  · exact absurd h (by simp)
  · split at h
    · simp only [Except.ok.injEq] at h
      subst h
      exact ⟨rfl, Or.inl rfl⟩
    · split at h
      · exact absurd h (by simp)
      · simp only [Except.ok.injEq] at h
        subst h
        exact ⟨rfl, Or.inr rfl⟩

theorem textSearchTool_ok {env : Env} {cid : String} {q : Option String}
    {lim : Option Int} {r : ToolResult} (h : textSearchTool env cid q lim = .ok r) :
    wellFormedFor cid r := by
  unfold textSearchTool at h
  split at h
  · exact absurd h (by simp)
  · simp only [Except.ok.injEq] at h
    subst h
    exact ⟨rfl, Or.inr rfl⟩

theorem getStatsTool_ok {env : Env} {cid : String} {d : Option Bool} {r : ToolResult}
    (h : getStatsTool env cid d = .ok r) : wellFormedFor cid r := by
  simp only [getStatsTool, Except.ok.injEq] at h
  subst h
  exact ⟨rfl, Or.inr rfl⟩

theorem getSampleTool_ok {env : Env} {cid : String} {c rf : Option Int} {r : ToolResult}
    (h : getSampleTool env cid c rf = .ok r) : wellFormedFor cid r := by
  simp only [getSampleTool, Except.ok.injEq] at h
  subst h
  exact ⟨rfl, Or.inr rfl⟩

theorem flexibleSearchTool_ok {env : Env} {cid : String} {terms : Option TermsArg}
    {mode : Option String} {lim : Option Int} {regex : Option Bool} {r : ToolResult}
    (h : flexibleSearchTool env cid terms mode lim regex = .ok r) :
    wellFormedFor cid r := by
  simp only [flexibleSearchTool] at h
  split at h
  · simp only [Except.ok.injEq] at h
    subst h
    exact ⟨rfl, Or.inl rfl⟩
  · split at h
    · split at h
      · simp only [Except.ok.injEq] at h
        subst h
        exact ⟨rfl, Or.inl rfl⟩
      · simp only [Except.ok.injEq] at h
        subst h
        exact ⟨rfl, Or.inr rfl⟩
    · simp only [Except.ok.injEq] at h
      subst h
      exact ⟨rfl, Or.inr rfl⟩

theorem dispatchTool_ok {env : Env} {tc : ToolCall} {args : ArgsObj} {r : ToolResult}
    (h : dispatchTool env tc args = .ok r) : wellFormedFor tc.id r := by
  unfold dispatchTool at h
  split at h
  · exact sqlQueryTool_ok h
  · exact textSearchTool_ok h
  · exact flexibleSearchTool_ok h
  · exact getStatsTool_ok h
  · exact getSampleTool_ok h
  · simp only [Except.ok.injEq] at h
    subst h
    exact ⟨rfl, Or.inl rfl⟩

theorem execute_wf (parse : String → Option ArgsObj) (env : Env) (tc : ToolCall) :
    wellFormedFor tc.id (execute parse env tc) := by
  unfold execute
  cases hp : parse tc.function.arguments with
  | none => exact ⟨rfl, Or.inl rfl⟩
  | some args =>
    cases hd : dispatchTool env tc args with
    | ok r =>
      simp only [hd]
      exact dispatchTool_ok hd
    | error e =>
      simp only [hd]
      exact ⟨rfl, Or.inl rfl⟩

theorem execute_call_id (parse : String → Option ArgsObj) (env : Env) (tc : ToolCall) :
    (execute parse env tc).call_id = tc.id :=
  (execute_wf parse env tc).1

/-- C4: for every tool call — including an unknown tool name and an
unparseable argument string — execute never throws (it is a total function
into ToolResult; every handler fault, modelled as `Except.error`, is
caught and returned as a ToolResult error string), and a ToolResult never
carries both a successful result payload and an error. -/
theorem execute_never_both (parse : String → Option ArgsObj) (env : Env) (tc : ToolCall) :
    (execute parse env tc).result = none ∨ (execute parse env tc).error = none :=
  (execute_wf parse env tc).2

/-! ## C8: get_sample -/

/-- C8: get_sample clamps `count` to [1,20]; a rating_filter outside the
1–5 rating domain (for example 6) is ignored rather than raising an
error: the query runs unfiltered and an unfiltered random sample is
returned. -/
theorem get_sample_clamp_and_filter (env : Env) (cid : String) (count : Option Int) :
    (1 ≤ safeSampleCount count ∧ safeSampleCount count ≤ 20)
    ∧ (∀ v : Int, ¬ (1 ≤ v ∧ v ≤ 5) →
        getSampleTool env cid count (some v) = .ok
          { name := "get_sample", call_id := cid,
            result := some (.sampleRes
              ((env.shuffle env.db).take (safeSampleCount count).toNat).length
              (sampleFilterLabel (some v))
              (((env.shuffle env.db).take (safeSampleCount count).toNat).map mkReviewFull)),
            error := none }) := by
  refine ⟨⟨?_, ?_⟩, ?_⟩
  · exact le_min (le_max_left 1 _) (by norm_num)
  · exact min_le_right _ _
  · intro v hv
    have hact : sampleFilterActive (some v) = false := by
      simp only [sampleFilterActive, decide_eq_false_iff_not]
      tauto
    rw [getSampleTool]
    simp [hact]

/-- Witness for C8 at `rating_filter = 6`. -/
theorem get_sample_clamp_and_filter_witness :
    (1 ≤ safeSampleCount (some 3) ∧ safeSampleCount (some 3) ≤ 20)
    ∧ ¬ ((1 : Int) ≤ 6 ∧ (6 : Int) ≤ 5)
    ∧ getSampleTool sampleEnvA "c4" (some 3) (some 6) = .ok
        { name := "get_sample", call_id := "c4",
          result := some (.sampleRes
            ((sampleEnvA.shuffle sampleEnvA.db).take (safeSampleCount (some 3)).toNat).length
            (sampleFilterLabel (some 6))
            (((sampleEnvA.shuffle sampleEnvA.db).take
              (safeSampleCount (some 3)).toNat).map mkReviewFull)),
          error := none } :=
  ⟨(get_sample_clamp_and_filter sampleEnvA "c4" (some 3)).1, by decide,
   (get_sample_clamp_and_filter sampleEnvA "c4" (some 3)).2 6 (by decide)⟩

/-! ## C9: limit clamps -/

/-- C9: text_search and flexible_search clamp `limit` to [1,50] before
using it as the row cap of the issued query, with defaults 10 and 15 when
the limit is absent. -/
theorem search_limit_clamp (env : Env) (cid : String) (limit : Option Int) :
    (1 ≤ clampLimit 10 limit ∧ clampLimit 10 limit ≤ 50 ∧ clampLimit 10 none = 10
      ∧ 1 ≤ clampLimit 15 limit ∧ clampLimit 15 limit ≤ 50 ∧ clampLimit 15 none = 15)
    ∧ (∀ q : String, textSearchTool env cid (some q) limit = .ok
        { name := "text_search", call_id := cid,
          result := some (.textRes q
            ((env.db.filter (fun r => ilikeTermMatch q r.description)).take
              (clampLimit 10 limit).toNat).length
            (env.db.filter (fun r => ilikeTermMatch q r.description)).length
            (((env.db.filter (fun r => ilikeTermMatch q r.description)).take
              (clampLimit 10 limit).toNat).map mkReviewExcerpt)),
          error := none })
    ∧ (∀ (terms : Option TermsArg) (mode : Option String) (regex : Option Bool)
        (r : ToolResult) ts md rg tm mr tb rvs,
        flexibleSearchTool env cid terms mode limit regex = .ok r →
        r.result = some (.flexRes ts md rg tm mr tb rvs) →
        rvs.length ≤ (clampLimit 15 limit).toNat) := by
  refine ⟨⟨?_, ?_, by decide, ?_, ?_, by decide⟩, ?_, ?_⟩
  · exact le_min (le_max_left 1 _) (by norm_num)
  · exact min_le_right _ _
  · exact le_min (le_max_left 1 _) (by norm_num)
  · exact min_le_right _ _
  · intro q
    rfl
  · intro terms mode regex r ts md rg tm mr tb rvs h hp
    simp only [flexibleSearchTool] at h
    split at h
    · simp only [Except.ok.injEq] at h
      subst h
      simp at hp
    · split at h
      · split at h
        · simp only [Except.ok.injEq] at h
          subst h
          simp at hp
        · simp only [Except.ok.injEq] at h
          subst h
          simp only [mkFlexSuccess, ResultPayload.flexRes.injEq, Option.some.injEq] at hp
          obtain ⟨-, -, -, -, -, -, hrvs⟩ := hp
          subst hrvs
          simp only [List.length_map, List.length_take]
          exact min_le_left _ _
      · simp only [Except.ok.injEq] at h
        subst h
        simp only [mkFlexSuccess, ResultPayload.flexRes.injEq, Option.some.injEq] at hp
        obtain ⟨-, -, -, -, -, -, hrvs⟩ := hp
        subst hrvs
        simp only [List.length_map, List.length_take]
        exact min_le_left _ _

/-- Witness for C9: a limit of 999 is clamped to 50 in both tools. -/
theorem search_limit_clamp_witness :
    textSearchTool sampleEnvA "c5" (some "spotless") (some 999) = .ok
      { name := "text_search", call_id := "c5",
        result := some (.textRes "spotless"
          ((sampleEnvA.db.filter (fun r => ilikeTermMatch "spotless" r.description)).take
            (clampLimit 10 (some 999)).toNat).length
          (sampleEnvA.db.filter (fun r => ilikeTermMatch "spotless" r.description)).length
          (((sampleEnvA.db.filter (fun r => ilikeTermMatch "spotless" r.description)).take
            (clampLimit 10 (some 999)).toNat).map mkReviewExcerpt)),
        error := none }
    ∧ flexibleSearchTool sampleEnvA "c5" (some (.arr ["spotless"])) none (some 999) none =
        .ok { name := "flexible_search", call_id := "c5",
              result := some (.flexRes ["spotless"] "AND" false 1 1 [("spotless", 1)]
                [⟨0, 5, "spotless room"⟩]),
              error := none }
    ∧ ([(⟨0, 5, "spotless room"⟩ : ReviewOut)]).length ≤ (clampLimit 15 (some 999)).toNat :=
  ⟨(search_limit_clamp sampleEnvA "c5" (some 999)).2.1 "spotless",
   rfl,
   (search_limit_clamp sampleEnvA "c5" (some 999)).2.2 (some (.arr ["spotless"])) none none
     { name := "flexible_search", call_id := "c5",
       result := some (.flexRes ["spotless"] "AND" false 1 1 [("spotless", 1)]
         [⟨0, 5, "spotless room"⟩]),
       error := none }
     ["spotless"] "AND" false 1 1 [("spotless", 1)] [⟨0, 5, "spotless room"⟩]
     rfl rfl⟩

/-! ## C10: quote escaping and wildcard passthrough -/

theorem escQuotesL_eq_self {l : List Char} (h : ∀ c ∈ l, c ≠ '\'') :
    escQuotesL l = l := by
  induction l with
  | nil => rfl
  | cons c cs ih =>
    simp only [escQuotesL, if_neg (h c (List.mem_cons_self c cs))]
    rw [ih (fun x hx => h x (List.mem_cons_of_mem c hx))]

/-- C10: the search tools escape only embedded single quotes (doubling
them) before interpolating a term into the ILIKE pattern; `%` and `_`
pass through unescaped, so a term containing them is matched as a
wildcard pattern, not as a literal substring. -/
theorem ilike_wildcard_passthrough :
    (∀ t : String, (∀ c ∈ t.data, c ≠ '\'') → escQuotes t = t)
    ∧ escQuotesL ['i', 't', '\'', 's'] = ['i', 't', '\'', '\'', 's']
    ∧ ilikeTermMatch "a%b" "axxb" = true
    ∧ hasSubstr "axxb" "a%b" = false
    ∧ ilikeTermMatch "a_b" "aXb" = true
    ∧ hasSubstr "aXb" "a_b" = false
    ∧ textSearchTool wildcardEnv "c6" (some "a%b") none = .ok
        { name := "text_search", call_id := "c6",
          result := some (.textRes "a%b" 1 1 [⟨0, 4, "axxb"⟩]), error := none } := by
  refine ⟨?_, by decide, by decide, by decide, by decide, by decide, rfl⟩
  intro t ht
  unfold escQuotes
  rw [escQuotesL_eq_self ht]

/-- Witness for C10 at the wildcard term `a%b`. -/
theorem ilike_wildcard_passthrough_witness :
    (∀ c ∈ ("a%b" : String).data, c ≠ '\'') ∧ escQuotes "a%b" = "a%b" :=
  ⟨by decide, ilike_wildcard_passthrough.1 "a%b" (by decide)⟩

/-! ## C7: flexible_search AND mode -/

theorem joinPred_true_iff (preds : List (Row → Bool)) (r : Row) :
    joinPred true preds r = true ↔ ∀ p ∈ preds, p r = true := by
  simp [joinPred]

/-- C7: for flexible_search in AND (non-regex) mode over a list of terms,
every returned review corresponds to a database row whose description
matches every term's ILIKE pattern, and the reported total match count is
at most each per-term count of `term_breakdown` (hence at most their
minimum). -/
theorem flexible_search_and_mode (env : Env) (cid : String) (l : List String)
    (mode : Option String) (limit : Option Int) (regex : Option Bool)
    (hmode : mode.getD "AND" = "AND") (hregex : regex.getD false = false)
    (r : ToolResult) (ts : List String) (md : String) (rg : Bool) (tm mr : Nat)
    (tb : List (String × Int)) (rvs : List ReviewOut)
    (hr : flexibleSearchTool env cid (some (.arr l)) mode limit regex = .ok r)
    (hp : r.result = some (.flexRes ts md rg tm mr tb rvs)) :
    (∀ rv ∈ rvs, ∃ row ∈ env.db, row.rowIndex = rv.id
      ∧ ∀ t ∈ normalizeTerms (some (.arr l)), ilikeTermMatch t row.description = true)
    ∧ (∀ p ∈ tb, (tm : Int) ≤ p.2) := by
  simp only [flexibleSearchTool, hmode, hregex, beq_self_eq_true, if_false,
    Bool.false_eq_true] at hr
  split at hr
  · simp only [Except.ok.injEq] at hr
    subst hr
    simp at hp
  · simp only [Except.ok.injEq] at hr
    subst hr
    simp only [mkFlexSuccess, ResultPayload.flexRes.injEq, Option.some.injEq] at hp
    obtain ⟨hts, -, -, htm, -, htb, hrvs⟩ := hp
    subst hts
    subst htm
    subst htb
    subst hrvs
    constructor
    · intro rv hrv
      obtain ⟨row, hrow, hre⟩ := List.mem_map.mp hrv
      have hrowm := List.mem_of_mem_take hrow
      have hrowf := List.mem_filter.mp hrowm
      refine ⟨row, hrowf.1, ?_, ?_⟩
      · subst hre
        rfl
      · have hall := (joinPred_true_iff _ row).mp hrowf.2
        intro t ht
        exact hall _ (List.mem_map_of_mem _ ht)
    · intro p hpmem
      obtain ⟨t, ht, hpe⟩ := List.mem_map.mp hpmem
      subst hpe
      simp only [termBreakdownEntry]
      have hmono := length_filter_mono env.db
        (joinPred ((true : Bool)) ((normalizeTerms (some (.arr l))).map
          (fun t r => ilikeTermMatch t r.description)))
        (fun r => ilikeTermMatch t r.description) ?_
      · simp only [Bool.false_eq_true, if_false]
        exact_mod_cast hmono
      · intro x hx
        have hallx := (joinPred_true_iff _ x).mp hx
        exact hallx _ (List.mem_map_of_mem _ ht)

/-- Witness for C7 at terms ["breakfast", "ocean view"]. -/
theorem flexible_search_and_mode_witness :
    ((none : Option String).getD "AND" = "AND")
    ∧ ((none : Option Bool).getD false = false)
    ∧ ((∀ rv ∈ [(⟨0, 5, "Great breakfast and ocean view"⟩ : ReviewOut)],
          ∃ row ∈ flexEnvB.db, row.rowIndex = rv.id
            ∧ ∀ t ∈ normalizeTerms (some (.arr ["breakfast", "ocean view"])),
                ilikeTermMatch t row.description = true)
        ∧ (∀ p ∈ [("breakfast", (2 : Int)), ("ocean view", (1 : Int))],
            ((1 : Nat) : Int) ≤ p.2)) :=
  ⟨rfl, rfl,
   flexible_search_and_mode flexEnvB "c7" ["breakfast", "ocean view"] none none none
     rfl rfl
     { name := "flexible_search", call_id := "c7",
       result := some (.flexRes ["breakfast", "ocean view"] "AND" false 1 1
         [("breakfast", 2), ("ocean view", 1)]
         [⟨0, 5, "Great breakfast and ocean view"⟩]),
       error := none }
     ["breakfast", "ocean view"] "AND" false 1 1
     [("breakfast", 2), ("ocean view", 1)]
     [⟨0, 5, "Great breakfast and ocean view"⟩]
     rfl rfl⟩

/-! ## C6: selection context builder -/

theorem digestGo_spec (lim : Nat) (pts : List SelPoint) :
    ∀ i totalChars : Nat,
      (digestGo lim i totalChars pts).2.2 ≤ pts.length
      ∧ (digestGo lim i totalChars pts).1 =
          fmtList i (pts.take (digestGo lim i totalChars pts).2.2)
      ∧ (digestGo lim i totalChars pts).2.1 =
          totalChars + fmtLenSum i pts (digestGo lim i totalChars pts).2.2
      ∧ (∀ k, k ≤ (digestGo lim i totalChars pts).2.2 → k ≠ 0 →
          totalChars + fmtLenSum i pts k ≤ lim)
      ∧ ((digestGo lim i totalChars pts).2.2 < pts.length →
          lim < totalChars + fmtLenSum i pts ((digestGo lim i totalChars pts).2.2 + 1)) := by
  induction pts with
  | nil =>
    intro i totalChars
    refine ⟨le_refl 0, rfl, by simp [digestGo, fmtLenSum], ?_, by simp [digestGo]⟩
    intro k hk hk0
    exact absurd (Nat.le_zero.mp hk) hk0
  | cons p rest ih =>
    intro i totalChars
    simp only [digestGo]
    by_cases hbr : lim < totalChars + (formatReview i p).length + 4
    · rw [if_pos hbr]
      dsimp only
      refine ⟨Nat.zero_le _, rfl, by simp [fmtLenSum], ?_, ?_⟩
      · intro k hk hk0
        exact absurd (Nat.le_zero.mp hk) hk0
      · intro _
        simp only [fmtLenSum]
        omega
    · rw [if_neg hbr]
      dsimp only
      obtain ⟨ha, hb, hc, hd, he⟩ := ih (i + 1) (totalChars + (formatReview i p).length + 4)
      refine ⟨by simp only [List.length_cons]; omega, ?_, ?_, ?_, ?_⟩
      · simp only [List.take_succ_cons, fmtList]
        rw [hb]
      · simp only [fmtLenSum]
        omega
      · intro k hk hk0
        cases k with
        | zero => exact absurd rfl hk0
        | succ k2 =>
          cases k2 with
          | zero =>
            simp only [fmtLenSum]
            omega
          | succ k3 =>
            have hsum := hd (k3 + 1) (by omega) (by omega)
            simp only [fmtLenSum] at hsum ⊢
            omega
      · intro hlt
        simp only [List.length_cons] at hlt
        have hgt := he (by omega)
        simp only [fmtLenSum] at hgt ⊢
        omega

/-- C6: the selection-context builder iterates records in input order,
stops as soon as the next formatted record (plus separator) would push
the accumulated length over budget − header reserve, counts excluded
records in the total, computes the aggregate statistics over included
records only, and sets `truncated` exactly when fewer records are
included than the total; with budget 100, reserve 0, and records each
formatting to 60 characters, exactly one record is included and
`truncated` is set exactly when at least 2 records are available. -/
theorem selection_context_spec (B H : Nat) (pts : List SelPoint) (totalCount : Option Nat) :
    ((buildSelectionContext B H pts totalCount).included ≤ pts.length)
    ∧ (buildSelectionContext B H pts totalCount).reviewsFormatted =
        fmtList 0 (pts.take (buildSelectionContext B H pts totalCount).included)
    ∧ (∀ k, k ≤ (buildSelectionContext B H pts totalCount).included →
        fmtLenSum 0 pts k ≤ B - H)
    ∧ ((buildSelectionContext B H pts totalCount).included < pts.length →
        B - H < fmtLenSum 0 pts ((buildSelectionContext B H pts totalCount).included + 1))
    ∧ (buildSelectionContext B H pts totalCount).total = jsTotalCount totalCount pts.length
    ∧ (buildSelectionContext B H pts totalCount).ratingsUsed =
        (pts.take (buildSelectionContext B H pts totalCount).included).filterMap
          (fun p => p.Rating)
    ∧ (buildSelectionContext B H pts totalCount).avgRating =
        (if (buildSelectionContext B H pts totalCount).ratingsUsed.isEmpty then none
         else some (((buildSelectionContext B H pts totalCount).ratingsUsed.sum : Rat) /
           ((buildSelectionContext B H pts totalCount).ratingsUsed.length : Rat)))
    ∧ (buildSelectionContext B H pts totalCount).ratingCounts =
        ((sortAscInt (dedupFirstInt (buildSelectionContext B H pts totalCount).ratingsUsed)).reverse).map
          (fun v => (v, (buildSelectionContext B H pts totalCount).ratingsUsed.count v))
    ∧ ((buildSelectionContext B H pts totalCount).truncated = true ↔
        (buildSelectionContext B H pts totalCount).included <
          (buildSelectionContext B H pts totalCount).total)
    ∧ (∀ qts : List SelPoint, qts ≠ [] →
        (∀ j, (hj : j < qts.length) → (formatReview j (qts.get ⟨j, hj⟩)).length = 60) →
        (buildSelectionContext 100 0 qts none).included = 1
        ∧ ((buildSelectionContext 100 0 qts none).truncated = true ↔ 2 ≤ qts.length)) := by
  obtain ⟨ha, hb, hc, hd, he⟩ := digestGo_spec (B - H) pts 0 0
  refine ⟨ha, hb, ?_, ?_, rfl, rfl, rfl, rfl, ?_, ?_⟩
  · intro k hk
    cases k with
    | zero => simp [fmtLenSum]
    | succ k2 =>
      replace hk : k2 + 1 ≤ (digestGo (B - H) 0 0 pts).2.2 := hk
      have hsum := hd (k2 + 1) hk (by omega)
      omega
  · intro hlt
    replace hlt : (digestGo (B - H) 0 0 pts).2.2 < pts.length := hlt
    have hgt := he hlt
    show B - H < fmtLenSum 0 pts ((digestGo (B - H) 0 0 pts).2.2 + 1)
    omega
  · show decide ((digestGo (B - H) 0 0 pts).2.2 < jsTotalCount totalCount pts.length) = true
      ↔ (digestGo (B - H) 0 0 pts).2.2 < jsTotalCount totalCount pts.length
    exact decide_eq_true_iff
  · intro qts hne h60
    cases qts with
    | nil => exact absurd rfl hne
    | cons q0 qrest =>
      obtain ⟨ga, gb, gc, gd, ge⟩ := digestGo_spec (100 - 0) (q0 :: qrest) 0 0
      have h0 : (formatReview 0 q0).length = 60 := h60 0 (by simp)
      have hlen1 : fmtLenSum 0 (q0 :: qrest) 1 = 64 := by
        simp [fmtLenSum, h0]
      have hinc : (digestGo (100 - 0) 0 0 (q0 :: qrest)).2.2 = 1 := by
        have hle := ga
        simp only [List.length_cons] at hle
        rcases Nat.lt_or_ge (digestGo (100 - 0) 0 0 (q0 :: qrest)).2.2 1 with hlt | hge
        · exfalso
          have hz : (digestGo (100 - 0) 0 0 (q0 :: qrest)).2.2 = 0 := by omega
          have hgt := ge (by rw [hz]; simp)
          rw [hz, hlen1] at hgt
          omega
        · rcases Nat.lt_or_ge (digestGo (100 - 0) 0 0 (q0 :: qrest)).2.2 2 with hlt2 | hge2
          · omega
          · exfalso
            cases qrest with
            | nil =>
              simp only [List.length_nil] at hle
              omega
            | cons q1 qrest2 =>
              have h1 : (formatReview 1 q1).length = 60 := h60 1 (by simp)
              have hsum := gd 2 hge2 (by omega)
              simp [fmtLenSum, h0, h1] at hsum
      refine ⟨?_, ?_⟩
      · show (digestGo (100 - 0) 0 0 (q0 :: qrest)).2.2 = 1
        exact hinc
      · show decide ((digestGo (100 - 0) 0 0 (q0 :: qrest)).2.2 <
            jsTotalCount none (q0 :: qrest).length) = true ↔ 2 ≤ (q0 :: qrest).length
        rw [hinc]
        simp only [jsTotalCount, decide_eq_true_eq, List.length_cons]
        omega

/-- Witness for C6: with budget 100, reserve 0 and two records formatting
to 60 characters, exactly one record is included and `truncated` is set. -/
theorem selection_context_spec_witness :
    ([demoPoint, demoPoint] ≠ ([] : List SelPoint))
    ∧ (∀ j, (hj : j < ([demoPoint, demoPoint] : List SelPoint).length) →
        (formatReview j (([demoPoint, demoPoint] : List SelPoint).get ⟨j, hj⟩)).length = 60)
    ∧ (buildSelectionContext 100 0 [demoPoint, demoPoint] none).included = 1
    ∧ ((buildSelectionContext 100 0 [demoPoint, demoPoint] none).truncated = true ↔
        2 ≤ ([demoPoint, demoPoint] : List SelPoint).length) :=
  ⟨by decide, by decide,
   ((selection_context_spec 100 0 [] none).2.2.2.2.2.2.2.2.2
     [demoPoint, demoPoint] (by decide) (by decide)).1,
   ((selection_context_spec 100 0 [] none).2.2.2.2.2.2.2.2.2
     [demoPoint, demoPoint] (by decide) (by decide)).2⟩

/-! ## C1 and C3: the agent loop -/

theorem agentLoopAux_spec (exec : ToolCall → ToolResult) (render : ToolResult → String)
    (backend : Nat → List ChatMsg → AgentResponse) :
    ∀ (fuel iteration : Nat) (conv : List ChatMsg) (tools : List String),
      (agentLoopAux exec render backend fuel iteration conv tools).invocations.length ≤ fuel
      ∧ ((∃ t, (agentLoopAux exec render backend fuel iteration conv tools).outcome =
            .finalAnswer t)
          ∨ (agentLoopAux exec render backend fuel iteration conv tools).outcome =
              .iterLimit (jsSetDedup
                (agentLoopAux exec render backend fuel iteration conv tools).toolsExecuted))
      ∧ (agentLoopAux exec render backend fuel iteration conv tools).toolsExecuted =
          tools ++ executedNames
            (agentLoopAux exec render backend fuel iteration conv tools).invocations := by
  intro fuel
  induction fuel with
  | zero =>
    intro iteration conv tools
    exact ⟨by simp [agentLoopAux], Or.inr rfl, by simp [agentLoopAux, executedNames]⟩
  | succ f ih =>
    intro iteration conv tools
    simp only [agentLoopAux]
    by_cases hcalls : hasToolCalls (backend (iteration + 1)
        (if iteration + 1 = maxIterations - 1 then conv ++ [wrapUpMsg] else conv)) = true
    · rw [if_pos hcalls]
      dsimp only
      obtain ⟨iha, ihb, ihc⟩ := ih (iteration + 1)
        (appendToolBatch exec render conv (backend (iteration + 1)
          (if iteration + 1 = maxIterations - 1 then conv ++ [wrapUpMsg] else conv)).tool_calls)
        (tools ++ ((backend (iteration + 1)
          (if iteration + 1 = maxIterations - 1 then conv ++ [wrapUpMsg] else conv)).tool_calls.map
            toolCallName))
      refine ⟨by simpa using Nat.succ_le_succ iha, ihb, ?_⟩
      rw [ihc]
      simp [executedNames, hcalls, List.append_assoc]
    · rw [if_neg hcalls]
      dsimp only
      refine ⟨by simp, Or.inl ⟨_, rfl⟩, ?_⟩
      simp [executedNames, hcalls]

theorem agentLoopAux_always_calls (exec : ToolCall → ToolResult)
    (render : ToolResult → String) (backend : Nat → List ChatMsg → AgentResponse)
    (hb : ∀ k msgs, hasToolCalls (backend k msgs) = true) :
    ∀ (fuel iteration : Nat) (conv : List ChatMsg) (tools : List String),
      (agentLoopAux exec render backend fuel iteration conv tools).invocations.length = fuel
      ∧ (agentLoopAux exec render backend fuel iteration conv tools).outcome =
          .iterLimit (jsSetDedup
            (agentLoopAux exec render backend fuel iteration conv tools).toolsExecuted) := by
  intro fuel
  induction fuel with
  | zero =>
    intro iteration conv tools
    exact ⟨rfl, rfl⟩
  | succ f ih =>
    intro iteration conv tools
    simp only [agentLoopAux]
    rw [if_pos (hb (iteration + 1) _)]
    dsimp only
    obtain ⟨iha, ihb⟩ := ih (iteration + 1)
      (appendToolBatch exec render conv (backend (iteration + 1)
        (if iteration + 1 = maxIterations - 1 then conv ++ [wrapUpMsg] else conv)).tool_calls)
      (tools ++ ((backend (iteration + 1)
        (if iteration + 1 = maxIterations - 1 then conv ++ [wrapUpMsg] else conv)).tool_calls.map
          toolCallName))
    exact ⟨by simp [iha], ihb⟩

/-- C1: for every backend, the loop performs at most 8 model invocations
and ends with a final answer or the iteration-limit error reporting the
distinct tool names used so far; when the backend always returns tool
calls, it performs exactly 8 invocations and fails with that error. -/
theorem agent_loop_bounded (exec : ToolCall → ToolResult) (render : ToolResult → String)
    (backend : Nat → List ChatMsg → AgentResponse) (conv : List ChatMsg) :
    (sendMessageLoop exec render backend conv).invocations.length ≤ maxIterations
    ∧ ((∃ t, (sendMessageLoop exec render backend conv).outcome = .finalAnswer t)
        ∨ (sendMessageLoop exec render backend conv).outcome =
            .iterLimit (jsSetDedup (sendMessageLoop exec render backend conv).toolsExecuted))
    ∧ (sendMessageLoop exec render backend conv).toolsExecuted =
        executedNames (sendMessageLoop exec render backend conv).invocations
    ∧ ((∀ k msgs, hasToolCalls (backend k msgs) = true) →
        (sendMessageLoop exec render backend conv).invocations.length = maxIterations
        ∧ (sendMessageLoop exec render backend conv).outcome =
            .iterLimit (jsSetDedup
              (executedNames (sendMessageLoop exec render backend conv).invocations))) := by
  obtain ⟨ha, hb, hc⟩ := agentLoopAux_spec exec render backend maxIterations 0 conv []
  refine ⟨ha, hb, by simpa using hc, ?_⟩
  intro halways
  obtain ⟨ga, gb⟩ := agentLoopAux_always_calls exec render backend halways maxIterations 0 conv []
  have hc2 : (agentLoopAux exec render backend maxIterations 0 conv []).toolsExecuted =
      executedNames (agentLoopAux exec render backend maxIterations 0 conv []).invocations := by
    simpa using hc
  refine ⟨ga, ?_⟩
  show (agentLoopAux exec render backend maxIterations 0 conv []).outcome =
    Outcome.iterLimit (jsSetDedup (executedNames
      (agentLoopAux exec render backend maxIterations 0 conv []).invocations))
  rw [gb, hc2]

/-- Witness for C1: a backend that always returns tool calls stops after
exactly 8 invocations with the iteration-limit outcome. -/
theorem agent_loop_bounded_witness :
    (sendMessageLoop errorExec demoRender alwaysToolsBackend []).invocations.length =
      maxIterations
    ∧ (sendMessageLoop errorExec demoRender alwaysToolsBackend []).outcome =
        .iterLimit (jsSetDedup (executedNames
          (sendMessageLoop errorExec demoRender alwaysToolsBackend []).invocations)) :=
  (agent_loop_bounded errorExec demoRender alwaysToolsBackend []).2.2.2 (fun _ _ => rfl)

theorem agentLoopAux_head_conv (exec : ToolCall → ToolResult) (render : ToolResult → String)
    (backend : Nat → List ChatMsg → AgentResponse) :
    ∀ (fuel iteration : Nat) (conv : List ChatMsg) (tools : List String)
      (a : Nat × List ChatMsg × AgentResponse),
      (agentLoopAux exec render backend fuel iteration conv tools).invocations[0]? = some a →
      a.2.1 = conv := by
  intro fuel
  cases fuel with
  | zero =>
    intro iteration conv tools a h
    simp [agentLoopAux] at h
  | succ f =>
    intro iteration conv tools a h
    simp only [agentLoopAux] at h
    by_cases hcalls : hasToolCalls (backend (iteration + 1)
        (if iteration + 1 = maxIterations - 1 then conv ++ [wrapUpMsg] else conv)) = true
    · rw [if_pos hcalls] at h
      dsimp only at h
      rw [List.getElem?_cons_zero] at h
      simp only [Option.some.injEq] at h
      subst h
      rfl
    · rw [if_neg hcalls] at h
      dsimp only at h
      rw [List.getElem?_cons_zero] at h
      simp only [Option.some.injEq] at h
      subst h
      rfl

theorem agentLoopAux_consec (exec : ToolCall → ToolResult) (render : ToolResult → String)
    (backend : Nat → List ChatMsg → AgentResponse) :
    ∀ (fuel iteration : Nat) (conv : List ChatMsg) (tools : List String) (i : Nat)
      (a b : Nat × List ChatMsg × AgentResponse),
      (agentLoopAux exec render backend fuel iteration conv tools).invocations[i]? = some a →
      (agentLoopAux exec render backend fuel iteration conv tools).invocations[i + 1]? = some b →
      hasToolCalls a.2.2 = true
      ∧ b.2.1 = appendToolBatch exec render a.2.1 a.2.2.tool_calls := by
  intro fuel
  induction fuel with
  | zero =>
    intro iteration conv tools i a b ha hb
    simp [agentLoopAux] at ha
  | succ f ih =>
    intro iteration conv tools i a b ha hb
    simp only [agentLoopAux] at ha hb
    by_cases hcalls : hasToolCalls (backend (iteration + 1)
        (if iteration + 1 = maxIterations - 1 then conv ++ [wrapUpMsg] else conv)) = true
    · rw [if_pos hcalls] at ha hb
      dsimp only at ha hb
      cases i with
      | zero =>
        rw [List.getElem?_cons_zero] at ha
        simp only [Option.some.injEq] at ha
        subst ha
        rw [List.getElem?_cons_succ] at hb
        have hhead := agentLoopAux_head_conv exec render backend f (iteration + 1)
          (appendToolBatch exec render conv (backend (iteration + 1)
            (if iteration + 1 = maxIterations - 1 then conv ++ [wrapUpMsg] else conv)).tool_calls)
          _ b hb
        exact ⟨hcalls, hhead⟩
      | succ i2 =>
        rw [List.getElem?_cons_succ] at ha hb
        exact ih (iteration + 1) _ _ i2 a b ha hb
    · rw [if_neg hcalls] at ha hb
      dsimp only at ha hb
      cases i with
      | zero =>
        rw [List.getElem?_cons_succ] at hb
        simp at hb
      | succ i2 =>
        rw [List.getElem?_cons_succ] at ha
        simp at ha

/-- C3: in every iteration whose reply carries a batch of tool calls, the
conversation seen by the next model invocation extends the previous one by
the assistant echo plus exactly one ToolResult message per ToolCall of the
batch, in the order the model supplied them, each with `tool_call_id`
equal to that ToolCall's id. -/
theorem tool_batch_fully_resolved (parse : String → Option ArgsObj) (env : Env)
    (render : ToolResult → String) (backend : Nat → List ChatMsg → AgentResponse)
    (conv0 : List ChatMsg) (i : Nat) (a b : Nat × List ChatMsg × AgentResponse)
    (ha : (sendMessageLoop (execute parse env) render backend conv0).invocations[i]? = some a)
    (hb : (sendMessageLoop (execute parse env) render backend conv0).invocations[i + 1]? =
      some b)
    (hcalls : hasToolCalls a.2.2 = true) :
    b.2.1 = a.2.1 ++ [assistantToolMsg a.2.2.tool_calls]
        ++ (a.2.2.tool_calls.map (execute parse env)).map (toolResultMsg render)
    ∧ ((a.2.2.tool_calls.map (execute parse env)).map (toolResultMsg render)).map
        (fun m => m.tool_call_id) = a.2.2.tool_calls.map (fun c => some c.id) := by
  have hcons := agentLoopAux_consec (execute parse env) render backend maxIterations 0 conv0 []
    i a b ha hb
  refine ⟨hcons.2, ?_⟩
  simp only [List.map_map]
  refine List.map_congr_left ?_
  intro c hc
  simp only [Function.comp_apply, toolResultMsg]
  exact congrArg some (execute_call_id parse env c)

/-- Witness for C3 on a two-iteration run: the second invocation's
conversation is the first one plus the assistant echo and the matching
tool message. -/
theorem tool_batch_fully_resolved_witness :
    (sendMessageLoop (execute demoParse sampleEnvA) demoRender demoBackend
        []).invocations[0]? = some demoInvA
    ∧ (sendMessageLoop (execute demoParse sampleEnvA) demoRender demoBackend
        []).invocations[0 + 1]? = some demoInvB
    ∧ hasToolCalls demoInvA.2.2 = true
    ∧ demoInvB.2.1 = demoInvA.2.1 ++ [assistantToolMsg demoInvA.2.2.tool_calls]
        ++ (demoInvA.2.2.tool_calls.map (execute demoParse sampleEnvA)).map
            (toolResultMsg demoRender) :=
  ⟨by decide, by decide, by decide,
   (tool_batch_fully_resolved demoParse sampleEnvA demoRender demoBackend [] 0
     demoInvA demoInvB (by decide) (by decide) (by decide)).1⟩

end AtlasAgent
